import Mathlib

/-!
Verification development for `make_vendor_list.py`, a one-shot code-generation
utility that converts the UEFI PNP vendor-ID spreadsheet (an HTML table) into a
generated Python module holding a static mapping from 3-character vendor IDs to
vendor records.

The embedding below models:
  * the vendor record (`Vendor`) and calendar date (`Date`) values,
  * Python `str.strip` (`pyStrip`) and `str.encode("ascii")` length
    (`encodeAsciiLen`),
  * CPython `datetime.datetime.strptime(s, "%m/%d/%Y").date()` as
    `strptimeMDY`, following the regexes CPython builds for the directives
    (`%m` = `1[0-2]|0[1-9]|[1-9]`, `%d` = `3[0-1]|[1-2]\d|0[1-9]|[1-9]| [1-9]`,
    `%Y` = four digits), the full-match requirement, and the calendar
    validation performed by the `datetime` constructor. Digits are modelled as
    ASCII `0`-`9`.
  * `parse_spreadsheet` as a function from the list of table rows (each row a
    list of cells, a cell being `Option String` since an ElementTree element
    text may be absent) to the list of yielded records paired with the error,
    if any, that aborts the generator, and
  * `generate_vendor_module` and the driver `main` as pure functions.
-/

/-- Calendar date as produced by `datetime.date(year, month, day)`. -/
structure Date where
  year : Nat
  month : Nat
  day : Nat
deriving DecidableEq, Repr

/-- Modelled from the spec: the `bios_pnp.pnp.Vendor` record imported by the
script (its defining module is not part of this repository). Per the spec data
model it is an immutable value with fields `name`, `pnp_id` and
`approval_date`, created positionally as `pnp.Vendor(name, pnp_id, date)`. -/
structure Vendor where
  name : String
  pnp_id : String
  approval_date : Date
deriving DecidableEq, Repr

/-- Whitespace characters removed by Python `str.strip` (ASCII fragment). -/
def isSpaceChar (c : Char) : Bool :=
  c == ' ' || c == '\t' || c == '\n' || c == '\r'

/-- Python `str.strip()`: remove leading and trailing whitespace. -/
def pyStrip (s : String) : String :=
  ⟨((s.data.dropWhile isSpaceChar).reverse.dropWhile isSpaceChar).reverse⟩

/-- Length in bytes of `s.encode("ascii")`; `none` models the
`UnicodeEncodeError` raised when a character is outside ASCII. -/
def encodeAsciiLen (s : String) : Option Nat :=
  if s.data.all (fun c => c.toNat ≤ 127) then some s.data.length else none

/-- Numeric value of an ASCII digit character. -/
def digitVal (c : Char) : Nat := c.toNat - 48

/-- ASCII digit test (CPython compiles `\d` over ASCII digits here; Unicode
decimal digits are not modelled). -/
def isAsciiDigit (c : Char) : Bool := 48 ≤ c.toNat && c.toNat ≤ 57

/-- Candidate matches, in regex alternation order, of CPython strptime
directive `%m`, whose regex is `1[0-2]|0[1-9]|[1-9]`. Each candidate is the
parsed month value paired with the unconsumed input. -/
def monthCands (cs : List Char) : List (Nat × List Char) :=
  (match cs with
   | c1 :: c2 :: r =>
     if c1 == '1' && 48 ≤ c2.toNat && c2.toNat ≤ 50 then [(10 + digitVal c2, r)] else []
   | _ => []) ++
  (match cs with
   | c1 :: c2 :: r =>
     if c1 == '0' && 49 ≤ c2.toNat && c2.toNat ≤ 57 then [(digitVal c2, r)] else []
   | _ => []) ++
  (match cs with
   | c1 :: r =>
     if 49 ≤ c1.toNat && c1.toNat ≤ 57 then [(digitVal c1, r)] else []
   | _ => [])

/-- Candidate matches, in regex alternation order, of CPython strptime
directive `%d`, whose regex is `3[0-1]|[1-2]\d|0[1-9]|[1-9]| [1-9]`. -/
def dayCands (cs : List Char) : List (Nat × List Char) :=
  (match cs with
   | c1 :: c2 :: r =>
     if c1 == '3' && 48 ≤ c2.toNat && c2.toNat ≤ 49 then [(30 + digitVal c2, r)] else []
   | _ => []) ++
  (match cs with
   | c1 :: c2 :: r =>
     if (49 ≤ c1.toNat && c1.toNat ≤ 50) && isAsciiDigit c2 then
       [(10 * digitVal c1 + digitVal c2, r)] else []
   | _ => []) ++
  (match cs with
   | c1 :: c2 :: r =>
     if c1 == '0' && 49 ≤ c2.toNat && c2.toNat ≤ 57 then [(digitVal c2, r)] else []
   | _ => []) ++
  (match cs with
   | c1 :: r =>
     if 49 ≤ c1.toNat && c1.toNat ≤ 57 then [(digitVal c1, r)] else []
   | _ => []) ++
  (match cs with
   | c1 :: c2 :: r =>
     if c1 == ' ' && 49 ≤ c2.toNat && c2.toNat ≤ 57 then [(digitVal c2, r)] else []
   | _ => [])

/-- Match of `%Y`: exactly four digits, value read in base 10. -/
def year4 (cs : List Char) : Option (Nat × List Char) :=
  match cs with
  | a :: b :: c :: d :: r =>
    if isAsciiDigit a && isAsciiDigit b && isAsciiDigit c && isAsciiDigit d then
      some (1000 * digitVal a + 100 * digitVal b + 10 * digitVal c + digitVal d, r)
    else none
  | _ => none

/-- First candidate (in order) whose continuation succeeds; this is how the
backtracking regex engine resolves ordered alternation. -/
def firstSome : List α → (α → Option β) → Option β
  | [], _ => none
  | a :: l, f =>
    match f a with
    | some b => some b
    | none => firstSome l f

/-- Structural match of the whole pattern `%m/%d/%Y` against the entire
string: month, slash, day, slash, four-digit year, end of input. Returns
`(month, day, year)`. Because the positions of the two slashes force the
lengths of the month and day matches, at most one structural decomposition
exists, so taking the first full backtracking match agrees with CPython
(which takes the first match and then rejects trailing input). -/
def structMatch (cs : List Char) : Option (Nat × Nat × Nat) :=
  firstSome (monthCands cs) fun mc =>
    match mc.2 with
    | '/' :: r1 =>
      firstSome (dayCands r1) fun dc =>
        match dc.2 with
        | '/' :: r2 =>
          match year4 r2 with
          | some (y, []) => some (mc.1, dc.1, y)
          | _ => none
        | _ => none
    | _ => none

/-- Proleptic-Gregorian leap-year test, as used by `datetime`. -/
def isLeapYear (y : Nat) : Bool :=
  y % 4 == 0 && (y % 100 != 0 || y % 400 == 0)

/-- Number of days in a month, as validated by the `datetime` constructor. -/
def daysInMonth (y m : Nat) : Nat :=
  if m = 2 then (if isLeapYear y then 29 else 28)
  else if m = 4 ∨ m = 6 ∨ m = 9 ∨ m = 11 then 30
  else 31

/-- Model of `datetime.datetime.strptime(s, "%m/%d/%Y").date()`: structural
regex match of the whole string, then the calendar validation done by the
`datetime` constructor (`MINYEAR = 1`; the regexes already force
`1 ≤ month ≤ 12` and `1 ≤ day ≤ 31`). `none` models a raised `ValueError`. -/
def strptimeMDY (s : String) : Option Date :=
  match structMatch s.data with
  | some (m, d, y) =>
    if 1 ≤ y ∧ d ≤ daysInMonth y m then some ⟨y, m, d⟩ else none
  | none => none

/-- The exceptions that can abort `parse_spreadsheet` while it processes a
three-cell row, in the order the statements that raise them execute. -/
inductive ParseError where
  /-- `elem.text` is `None`, so `.strip()` raises `AttributeError`. -/
  | attrError
  /-- `datetime.datetime.strptime` raises `ValueError`. -/
  | dateError
  /-- the PNP ID check: `UnicodeEncodeError` from `encode("ascii")` or the
  explicit `ValueError` when the encoded length is not 3. -/
  | idError
deriving DecidableEq, Repr

/-- `elem.text.strip()` for one cell: `AttributeError` when the text is
absent, the stripped text otherwise. -/
def stripText : Option String → Except ParseError String
  | none => .error .attrError
  | some s => .ok (pyStrip s)

/-- Body of the `len(tds) == 3` branch of `parse_spreadsheet`: strip the
three cell texts (in order), parse the date, validate the ID, build the
record. Mirrors the statement order of the source. -/
def parseCells (c1 c2 c3 : Option String) : Except ParseError Vendor := do
  let name ← stripText c1
  let pnp_id ← stripText c2
  let raw_date ← stripText c3
  match strptimeMDY raw_date with
  | none => .error .dateError
  | some date =>
    match encodeAsciiLen pnp_id with
    | none => .error .idError
    | some n => if n ≠ 3 then .error .idError else .ok ⟨name, pnp_id, date⟩

/-- What one `tr` row contributes: `none` when the row is skipped because its
cell count is not 3, otherwise the outcome of processing its three cells. -/
def rowOutcome (r : List (Option String)) : Option (Except ParseError Vendor) :=
  match r with
  | [c1, c2, c3] => some (parseCells c1 c2 c3)
  | _ => none

/-- `parse_spreadsheet`, modelled on the list of `tbody` rows (each row the
list of its `td` cell texts). The generator's behaviour is captured as the
list of records yielded before the generator finishes or raises, paired with
the raised error, if any. -/
def parse_spreadsheet : List (List (Option String)) → List Vendor × Option ParseError
  | [] => ([], none)
  | r :: rest =>
    match rowOutcome r with
    | none => parse_spreadsheet rest
    | some (.error e) => ([], some e)
    | some (.ok v) =>
      let p := parse_spreadsheet rest
      (v :: p.1, p.2)

/-- The `datetime.date({}, {}, {})` expression formatted for a vendor. -/
def dateExpr (d : Date) : String :=
  "datetime.date(" ++ Nat.repr d.year ++ ", " ++ Nat.repr d.month ++ ", " ++
    Nat.repr d.day ++ ")"

/-- The `pnp.Vendor("{}", "{}", {})` expression formatted for a vendor. -/
def vendorValue (v : Vendor) : String :=
  "pnp.Vendor(\"" ++ v.name ++ "\", \"" ++ v.pnp_id ++ "\", " ++
    dateExpr v.approval_date ++ ")"

/-- The `    "{}": {},` entry line emitted for one vendor. -/
def vendorLine (v : Vendor) : String :=
  "    \"" ++ v.pnp_id ++ "\": " ++ vendorValue v ++ ","

/-- The `for vendor in vendors` loop of `generate_vendor_module`. -/
def entryLines : List Vendor → List String
  | [] => []
  | v :: vs => vendorLine v :: entryLines vs

/-- `generate_vendor_module`: the yielded lines, in order. -/
def generate_vendor_module (vendors : List Vendor) : List String :=
  ["# THIS FILE WAS AUTOGENERATED BY make_vendor_list.py!",
   "# pylint: disable=line-too-long,missing-docstring,too-many-lines",
   "# yapf: disable",
   "import datetime",
   "from bios_pnp import pnp",
   "VENDORS = \x7b"] ++
  entryLines vendors ++
  ["\x7d", "# yapf: enable", ""]

/-- `"\n".join(generate_vendor_module(vendors))` in `main`. -/
def joinedOutput (vendors : List Vendor) : String :=
  String.intercalate "\n" (generate_vendor_module vendors)

/-- The parser-into-generator pipeline that `main` consumes: the joined
output text on success, the propagated parser error otherwise. -/
def runPipeline (rows : List (List (Option String))) : Except ParseError String :=
  match parse_spreadsheet rows with
  | (vs, none) => .ok (joinedOutput vs)
  | (_, some e) => .error e

/-- `main`, modelled on the contents of the fixed output file: Python
`open(output_path, "w")` truncates the file before the lazy pipeline is
consumed, so on success the file holds the joined output, and on a pipeline
error it is left truncated (empty), the write never having happened. Returns
the final file contents and the propagated error, if any. -/
def mainModel (priorContents : String) (rows : List (List (Option String))) :
    String × Option ParseError :=
  let fileAfterOpen : String := ""
  match runPipeline rows with
  | .ok out => (out, none)
  | .error e => (fileAfterOpen, some e)

/-- Record yielded by a row, when the row is neither skipped nor erroring. -/
def rowYield (r : List (Option String)) : Option Vendor :=
  match rowOutcome r with
  | some (.ok v) => some v
  | _ => none

/-- Records yielded by a list of rows none of which raises. -/
def yieldsOf (rows : List (List (Option String))) : List Vendor :=
  rows.filterMap rowYield

/-- A row that does not raise when reached (it is either skipped or yields). -/
def rowNoError (r : List (Option String)) : Bool :=
  match rowOutcome r with
  | some (.error _) => false
  | _ => true

/-- ASCII digit character for a value below ten. -/
def decDigit : Nat → Char
  | 0 => '0' | 1 => '1' | 2 => '2' | 3 => '3' | 4 => '4'
  | 5 => '5' | 6 => '6' | 7 => '7' | 8 => '8' | _ => '9'

/-- Zero-padded two-digit rendering of a number below 100. -/
def twoDigitChars (n : Nat) : List Char :=
  if n < 10 then ['0', decDigit n] else [decDigit (n / 10), decDigit (n % 10)]

/-- Zero-padded four-digit rendering of a number below 10000. -/
def fourDigitChars (n : Nat) : List Char :=
  [decDigit (n / 1000), decDigit (n / 100 % 10), decDigit (n / 10 % 10), decDigit (n % 10)]

/-- The zero-padded `MM/DD/YYYY` rendering of a date, used to state which
date strings the well-formed-input claims quantify over. -/
def renderMDY (m d y : Nat) : String :=
  ⟨twoDigitChars m ++ '/' :: (twoDigitChars d ++ '/' :: fourDigitChars y)⟩

/-- A data row as the well-formed-table claim describes it: exactly three
cells bearing text, the date cell a valid zero-padded `MM/DD/YYYY` date and
the ID cell exactly 3 ASCII bytes once stripped. -/
def wellFormedRow (r : List (Option String)) : Prop :=
  ∃ a b c m d y, r = [some a, some b, some c] ∧
    pyStrip c = renderMDY m d y ∧
    1 ≤ m ∧ m ≤ 12 ∧ 1 ≤ d ∧ d ≤ daysInMonth y m ∧ 1 ≤ y ∧ y ≤ 9999 ∧
    encodeAsciiLen (pyStrip b) = some 3

/-- The record a well-formed row describes: the trimmed cell texts, with the
date cell decomposed by the date parser. -/
def recordOf (r : List (Option String)) : Vendor :=
  match r with
  | [a, b, c] =>
    { name := pyStrip (a.getD "")
      pnp_id := pyStrip (b.getD "")
      approval_date := (strptimeMDY (pyStrip (c.getD ""))).getD ⟨1900, 1, 1⟩ }
  | _ => ⟨"", "", ⟨1900, 1, 1⟩⟩

/-- Running the generator twice on the same input sequence, as the
idempotence claim describes. -/
def runTwice (vendors : List Vendor) : String × String :=
  (joinedOutput vendors, joinedOutput vendors)

/-- Consume an expected literal sequence of characters from the input. -/
def dropPre : List Char → List Char → Option (List Char)
  | [], s => some s
  | _ :: _, [] => none
  | p :: ps, c :: cs => if p == c then dropPre ps cs else none

/-- Consume characters up to (and including) the next double quote, returning
the characters before it. -/
def scanQuoted : List Char → Option (List Char × List Char)
  | [] => none
  | c :: cs =>
    if c == '"' then some ([], cs)
    else
      match scanQuoted cs with
      | some (tk, r) => some (c :: tk, r)
      | none => none

/-- Consume a nonempty run of leading ASCII digits as a base-10 number. -/
def scanNat (cs : List Char) : Option (Nat × List Char) :=
  let ds := cs.takeWhile isAsciiDigit
  if ds.isEmpty then none
  else some (ds.foldl (fun a c => 10 * a + digitVal c) 0, cs.dropWhile isAsciiDigit)

/-- Interpret one generated entry line back into its key/vendor pair: the
inverse of `vendorLine` on quoting-safe fields. -/
def parseEntryLine (s : String) : Option (String × Vendor) := do
  let r0 ← dropPre "    \"".data s.data
  let (key, r1) ← scanQuoted r0
  let r2 ← dropPre ": pnp.Vendor(\"".data r1
  let (nm, r3) ← scanQuoted r2
  let r4 ← dropPre ", \"".data r3
  let (id2, r5) ← scanQuoted r4
  let r6 ← dropPre ", datetime.date(".data r5
  let (y, r7) ← scanNat r6
  let r8 ← dropPre ", ".data r7
  let (mo, r9) ← scanNat r8
  let r10 ← dropPre ", ".data r9
  let (dy, r11) ← scanNat r10
  if r11 = ")),".data then some (⟨key⟩, ⟨⟨nm⟩, ⟨id2⟩, ⟨y, mo, dy⟩⟩) else none

/-- Interpret the generated module text as the mapping it declares: find the
opening mapping marker, then interpret every entry line up to the closing
marker. -/
def loadVendors (ls : List String) : Option (List (String × Vendor)) :=
  match ls.dropWhile (fun l => l ≠ "VENDORS = \x7b") with
  | _ :: rest => (rest.takeWhile (fun l => l ≠ "\x7d")).mapM parseEntryLine
  | [] => none

/-- Decimal digit string of a number, most significant digit first: the
specification that `Nat.toDigitsCore` computes with fuel. -/
def natDigits (n : Nat) : List Char :=
  if h : n < 10 then [Nat.digitChar n]
  else natDigits (n / 10) ++ [Nat.digitChar (n % 10)]
  termination_by n
  decreasing_by exact Nat.div_lt_self (by omega) (by omega)

/-- Example vendor used by the concrete claims. -/
def acme : Vendor := ⟨"Acme Corp", "ACM", ⟨2016, 1, 15⟩⟩

/-- Second example vendor used by the concrete claims. -/
def beta : Vendor := ⟨"Beta Inc", "BET", ⟨2020, 6, 1⟩⟩

example : strptimeMDY "01/15/2016" = some ⟨2016, 1, 15⟩ := by decide
example : strptimeMDY "1/1/2016" = some ⟨2016, 1, 1⟩ := by decide
example : strptimeMDY "2016-01-01" = none := by decide
example : strptimeMDY "02/30/2016" = none := by decide
example : strptimeMDY "02/29/2016" = some ⟨2016, 2, 29⟩ := by decide
example : strptimeMDY "02/29/2015" = none := by decide
example : strptimeMDY "12/31/20166" = none := by decide
example : strptimeMDY "00/01/2016" = none := by decide
example :
    parse_spreadsheet [[some "Acme Corp", some "ACM", some "01/15/2016"]] =
      ([⟨"Acme Corp", "ACM", ⟨2016, 1, 15⟩⟩], none) := by decide
example :
    parse_spreadsheet [[some "Acme Corp", some "AB", some "01/15/2016"]] =
      ([], some .idError) := by decide
example :
    parse_spreadsheet [[some "Acme Corp", none, some "01/15/2016"]] =
      ([], some .attrError) := by decide

/-- Character code of `decDigit k` for digit values. -/
theorem decDigit_toNat {k : Nat} (h : k ≤ 9) : (decDigit k).toNat = 48 + k := by
  interval_cases k <;> rfl

/-- `digitVal` inverts `decDigit` on digit values. -/
theorem digitVal_decDigit {k : Nat} (h : k ≤ 9) : digitVal (decDigit k) = k := by
  interval_cases k <;> rfl

/-- `decDigit` lands on ASCII digits. -/
theorem isAsciiDigit_decDigit {k : Nat} (h : k ≤ 9) : isAsciiDigit (decDigit k) = true := by
  interval_cases k <;> rfl

/-- First month candidate on a zero-padded two-digit month. -/
theorem monthCands_two (m : Nat) (h1 : 1 ≤ m) (h2 : m ≤ 12) (rest : List Char) :
    ∃ t, monthCands (twoDigitChars m ++ rest) = (m, rest) :: t := by
  interval_cases m <;> exact ⟨_, rfl⟩

/-- First day candidate on a zero-padded two-digit day. -/
theorem dayCands_two (d : Nat) (h1 : 1 ≤ d) (h2 : d ≤ 31) (rest : List Char) :
    ∃ t, dayCands (twoDigitChars d ++ rest) = (d, rest) :: t := by
  interval_cases d <;> exact ⟨_, rfl⟩

/-- `year4` reads back a zero-padded four-digit year. -/
theorem year4_four (y : Nat) (h : y ≤ 9999) (rest : List Char) :
    year4 (fourDigitChars y ++ rest) = some (y, rest) := by
  have h1 : y / 1000 ≤ 9 := by omega
  have h2 : y / 100 % 10 ≤ 9 := by omega
  have h3 : y / 10 % 10 ≤ 9 := by omega
  have h4 : y % 10 ≤ 9 := by omega
  simp only [fourDigitChars, List.cons_append, List.nil_append, year4,
    isAsciiDigit_decDigit h1, isAsciiDigit_decDigit h2, isAsciiDigit_decDigit h3,
    isAsciiDigit_decDigit h4, Bool.and_self, if_true, digitVal_decDigit h1,
    digitVal_decDigit h2, digitVal_decDigit h3, digitVal_decDigit h4,
    Option.some.injEq, Prod.mk.injEq]
  exact ⟨by omega, trivial⟩

/-- Months never exceed 31 days. -/
theorem daysInMonth_le_31 (y m : Nat) : daysInMonth y m ≤ 31 := by
  unfold daysInMonth
  split
  · split <;> omega
  · split <;> omega

/-- The date parser accepts the zero-padded rendering of every valid calendar
date and decomposes it into the original year, month and day. -/
theorem strptimeMDY_render (m d y : Nat) (h1 : 1 ≤ m) (h2 : m ≤ 12)
    (h3 : 1 ≤ d) (h4 : d ≤ daysInMonth y m) (h5 : 1 ≤ y) (h6 : y ≤ 9999) :
    strptimeMDY (renderMDY m d y) = some ⟨y, m, d⟩ := by
  have hd31 : d ≤ 31 := le_trans h4 (daysInMonth_le_31 y m)
  obtain ⟨tm, hm⟩ := monthCands_two m h1 h2 ('/' :: (twoDigitChars d ++ '/' :: fourDigitChars y))
  obtain ⟨td, hd⟩ := dayCands_two d h3 hd31 ('/' :: fourDigitChars y)
  have hy : year4 (fourDigitChars y) = some (y, []) := by
    have := year4_four y h6 []
    rwa [List.append_nil] at this
  have hdata : (renderMDY m d y).data =
      twoDigitChars m ++ '/' :: (twoDigitChars d ++ '/' :: fourDigitChars y) := rfl
  unfold strptimeMDY structMatch
  rw [hdata, hm]
  simp only [firstSome, hd, hy]
  simp [h4, h5]

/-- On a well-formed row the extracted record is the trimmed cell texts with
the date decomposed into its rendered year, month and day. -/
theorem recordOf_eq (a b c : String) (m d y : Nat)
    (hc : pyStrip c = renderMDY m d y) (h1 : 1 ≤ m) (h2 : m ≤ 12) (h3 : 1 ≤ d)
    (h4 : d ≤ daysInMonth y m) (h5 : 1 ≤ y) (h6 : y ≤ 9999) :
    recordOf [some a, some b, some c] = ⟨pyStrip a, pyStrip b, ⟨y, m, d⟩⟩ := by
  unfold recordOf
  simp only [Option.getD_some]
  rw [hc, strptimeMDY_render m d y h1 h2 h3 h4 h5 h6]
  rfl

/-- Unfolding equation for `parse_spreadsheet` on a nonempty row list. -/
theorem parse_spreadsheet_cons (r : List (Option String))
    (rest : List (List (Option String))) :
    parse_spreadsheet (r :: rest) =
      match rowOutcome r with
      | none => parse_spreadsheet rest
      | some (.error e) => ([], some e)
      | some (.ok v) => (v :: (parse_spreadsheet rest).1, (parse_spreadsheet rest).2) := rfl

/-- A skipped row (cell count not 3) contributes nothing. -/
theorem parse_spreadsheet_cons_skip (r : List (Option String))
    (rest : List (List (Option String))) (h : rowOutcome r = none) :
    parse_spreadsheet (r :: rest) = parse_spreadsheet rest := by
  rw [parse_spreadsheet_cons, h]

/-- A row that yields a record prepends it and processing continues. -/
theorem parse_spreadsheet_cons_ok (r : List (Option String))
    (rest : List (List (Option String))) (v : Vendor)
    (h : rowOutcome r = some (.ok v)) :
    parse_spreadsheet (r :: rest) =
      (v :: (parse_spreadsheet rest).1, (parse_spreadsheet rest).2) := by
  rw [parse_spreadsheet_cons, h]

/-- A row that raises aborts the run: nothing more is yielded. -/
theorem parse_spreadsheet_cons_err (r : List (Option String))
    (rest : List (List (Option String))) (e : ParseError)
    (h : rowOutcome r = some (.error e)) :
    parse_spreadsheet (r :: rest) = ([], some e) := by
  rw [parse_spreadsheet_cons, h]

/-- A well-formed row is processed without error and yields its record. -/
theorem rowOutcome_wellformed (r : List (Option String)) (h : wellFormedRow r) :
    rowOutcome r = some (.ok (recordOf r)) := by
  obtain ⟨a, b, c, m, d, y, hr, hc, h1, h2, h3, h4, h5, h6, hid⟩ := h
  subst hr
  have hdate := strptimeMDY_render m d y h1 h2 h3 h4 h5 h6
  rw [recordOf_eq a b c m d y hc h1 h2 h3 h4 h5 h6]
  have hro : rowOutcome [some a, some b, some c] =
      some (match strptimeMDY (pyStrip c) with
            | none => Except.error ParseError.dateError
            | some date =>
              match encodeAsciiLen (pyStrip b) with
              | none => Except.error ParseError.idError
              | some n =>
                if n ≠ 3 then Except.error ParseError.idError
                else Except.ok ⟨pyStrip a, pyStrip b, date⟩) := rfl
  rw [hro, hc, hdate, hid]
  simp

/-- Rows processed without error contribute their yields and processing
continues past them. -/
theorem parse_spreadsheet_append (pre rest : List (List (Option String)))
    (h : ∀ r ∈ pre, rowNoError r = true) :
    parse_spreadsheet (pre ++ rest) =
      (yieldsOf pre ++ (parse_spreadsheet rest).1, (parse_spreadsheet rest).2) := by
  induction pre with
  | nil => simp [yieldsOf]
  | cons r pre ih =>
    have hr : rowNoError r = true := h r (by simp)
    have hpre : ∀ r ∈ pre, rowNoError r = true := fun r hr => h r (by simp [hr])
    have hih := ih hpre
    unfold rowNoError at hr
    rw [List.cons_append]
    match ho : rowOutcome r with
    | none =>
      rw [parse_spreadsheet_cons_skip r _ ho, hih]
      simp [yieldsOf, rowYield, ho]
    | some (.error e) => simp [ho] at hr
    | some (.ok v) =>
      rw [parse_spreadsheet_cons_ok r _ v ho, hih]
      simp [yieldsOf, rowYield, ho]

/-- A table whose rows are all processed without error yields exactly the
records of its rows and finishes without raising. -/
theorem parse_spreadsheet_noerror (rows : List (List (Option String)))
    (h : ∀ r ∈ rows, rowNoError r = true) :
    parse_spreadsheet rows = (yieldsOf rows, none) := by
  have h2 := parse_spreadsheet_append rows [] h
  simpa [parse_spreadsheet] using h2

/-- A row whose cell count is not three is skipped: it has no outcome. -/
theorem rowOutcome_eq_none (r : List (Option String)) (h : r.length ≠ 3) :
    rowOutcome r = none := by
  match r with
  | [] => rfl
  | [_] => rfl
  | [_, _] => rfl
  | [_, _, _] => exact absurd rfl h
  | _ :: _ :: _ :: _ :: _ => rfl

/-- A row with exactly three cells has an outcome. -/
theorem rowOutcome_eq_some (r : List (Option String)) (h : r.length = 3) :
    rowOutcome r = some (parseCells r[0]! r[1]! r[2]!) := by
  obtain ⟨a, b, c, rfl⟩ := List.length_eq_three.mp h
  rfl

/-- Skipping is equivalent to filtering the table down to its 3-cell rows. -/
theorem parse_spreadsheet_eq_filter (rows : List (List (Option String))) :
    parse_spreadsheet rows =
      parse_spreadsheet (rows.filter fun r => r.length == 3) := by
  induction rows with
  | nil => rfl
  | cons r rest ih =>
    rw [List.filter_cons]
    by_cases h : r.length = 3
    · simp only [h, beq_self_eq_true, if_true]
      rw [parse_spreadsheet_cons, parse_spreadsheet_cons, ih]
    · rw [parse_spreadsheet_cons_skip r rest (rowOutcome_eq_none r h), ih]
      simp [h]

/-- The entry-line loop is a map over the input sequence. -/
theorem entryLines_eq_map (vs : List Vendor) : entryLines vs = vs.map vendorLine := by
  induction vs with
  | nil => rfl
  | cons v vs ih => simp [entryLines, ih]

/-- Consuming a literal that is present succeeds and leaves the rest. -/
theorem dropPre_append (p s : List Char) : dropPre p (p ++ s) = some s := by
  induction p with
  | nil => rfl
  | cons c p ih => simp [dropPre, ih]

/-- Scanning to a quote recovers a quote-free token before it. -/
theorem scanQuoted_append (tk r : List Char) (h : ∀ c ∈ tk, ¬c = '"') :
    scanQuoted (tk ++ '"' :: r) = some (tk, r) := by
  induction tk with
  | nil => rfl
  | cons c tk ih =>
    have hc : ¬c = '"' := h c (by simp)
    have ih2 := ih fun c hc2 => h c (by simp [hc2])
    simp [scanQuoted, hc, ih2]

/-- `takeWhile` and `dropWhile` split a digit run followed by a non-digit. -/
theorem takeWhile_digit_run (ds : List Char) (hd : ∀ c ∈ ds, isAsciiDigit c = true)
    (c : Char) (hc : isAsciiDigit c = false) (r : List Char) :
    (ds ++ c :: r).takeWhile isAsciiDigit = ds ∧
      (ds ++ c :: r).dropWhile isAsciiDigit = c :: r := by
  induction ds with
  | nil => simp [List.takeWhile, List.dropWhile, hc]
  | cons d ds ih =>
    have hdd : isAsciiDigit d = true := hd d (by simp)
    have ih2 := ih fun x hx => hd x (by simp [hx])
    simp [List.takeWhile, List.dropWhile, hdd, ih2]

/-- Every character of `natDigits` is an ASCII digit. -/
theorem natDigits_digits (n : Nat) : ∀ c ∈ natDigits n, isAsciiDigit c = true := by
  induction n using Nat.strong_induction_on with
  | _ n ih =>
    by_cases h : n < 10
    · intro c hc
      rw [natDigits, dif_pos h] at hc
      simp only [List.mem_singleton] at hc
      subst hc
      interval_cases n <;> rfl
    · intro c hc
      rw [natDigits, dif_neg h] at hc
      rcases List.mem_append.mp hc with h1 | h2
      · exact ih (n / 10) (Nat.div_lt_self (by omega) (by omega)) c h1
      · simp only [List.mem_singleton] at h2
        subst h2
        have : n % 10 ≤ 9 := by omega
        interval_cases hnm : n % 10 <;> simp_all <;> rfl

/-- `natDigits` is never empty. -/
theorem natDigits_ne_nil (n : Nat) : natDigits n ≠ [] := by
  rw [natDigits]
  split
  · simp
  · simp

/-- Folding the digit characters of `natDigits n` over an accumulator. -/
theorem foldl_natDigits (n : Nat) : ∀ a : Nat,
    (natDigits n).foldl (fun a c => 10 * a + digitVal c) a =
      a * 10 ^ (natDigits n).length + n := by
  induction n using Nat.strong_induction_on with
  | _ n ih =>
    intro a
    by_cases h : n < 10
    · rw [natDigits, dif_pos h]
      have hv : digitVal (Nat.digitChar n) = n := by interval_cases n <;> rfl
      simp [hv]
      omega
    · rw [natDigits, dif_neg h]
      have hlt : n / 10 < n := Nat.div_lt_self (by omega) (by omega)
      have hv : digitVal (Nat.digitChar (n % 10)) = n % 10 := by
        have : n % 10 ≤ 9 := by omega
        interval_cases hnm : n % 10 <;> simp_all <;> rfl
      rw [List.foldl_append, ih (n / 10) hlt a]
      simp only [List.foldl_cons, List.foldl_nil, List.length_append,
        List.length_singleton, hv]
      have hpow : 10 ^ ((natDigits (n / 10)).length + 1) =
          10 ^ (natDigits (n / 10)).length * 10 := by ring
      rw [hpow]
      have hdm : 10 * (n / 10) + n % 10 = n := Nat.div_add_mod n 10
      calc 10 * (a * 10 ^ (natDigits (n / 10)).length + n / 10) + n % 10
          = a * (10 ^ (natDigits (n / 10)).length * 10) + (10 * (n / 10) + n % 10) := by
            ring
        _ = a * (10 ^ (natDigits (n / 10)).length * 10) + n := by rw [hdm]

/-- `Nat.toDigitsCore` with enough fuel computes `natDigits`. -/
theorem toDigitsCore_eq (fuel n : Nat) (ds : List Char) (h : n < fuel) :
    Nat.toDigitsCore 10 fuel n ds = natDigits n ++ ds := by
  induction fuel generalizing n ds with
  | zero => omega
  | succ fuel ih =>
    simp only [Nat.toDigitsCore]
    by_cases h0 : n / 10 = 0
    · have hn : n < 10 := by omega
      rw [if_pos h0, natDigits, dif_pos hn, Nat.mod_eq_of_lt hn]
      rfl
    · have hn : ¬n < 10 := by omega
      have hstep : natDigits n = natDigits (n / 10) ++ [Nat.digitChar (n % 10)] := by
        rw [natDigits]
        exact dif_neg hn
      rw [if_neg h0, ih (n / 10) _ (by omega), hstep]
      simp

/-- The decimal representation of a number is its digit string. -/
theorem repr_data (n : Nat) : (Nat.repr n).data = natDigits n := by
  show (Nat.toDigits 10 n).asString.data = natDigits n
  rw [Nat.toDigits, toDigitsCore_eq (n + 1) n [] (by omega)]
  simp [List.asString]

/-- Scanning a number out of its decimal representation followed by a
non-digit recovers the number. -/
theorem scanNat_repr (n : Nat) (c : Char) (hc : isAsciiDigit c = false)
    (r : List Char) :
    scanNat ((Nat.repr n).data ++ c :: r) = some (n, c :: r) := by
  rw [repr_data]
  obtain ⟨ht, hd⟩ := takeWhile_digit_run (natDigits n) (natDigits_digits n) c hc r
  have hne : (natDigits n).isEmpty = false := by
    cases hnn : natDigits n with
    | nil => exact absurd hnn (natDigits_ne_nil n)
    | cons x xs => rfl
  simp only [scanNat]
  rw [ht, hd, hne]
  simp only [Bool.false_eq_true, if_false]
  rw [foldl_natDigits n 0]
  simp

example : parseEntryLine (vendorLine acme) = some ("ACM", acme) := by decide

example :
    loadVendors (generate_vendor_module [acme, beta]) =
      some [("ACM", acme), ("BET", beta)] := by decide

set_option maxHeartbeats 2000000 in
/-- Interpreting the entry line generated for a vendor whose name and ID are
free of double quotes recovers the key and the vendor. -/
theorem parseEntryLine_vendorLine (v : Vendor)
    (hn : ∀ c ∈ v.name.data, ¬c = '"') (hp : ∀ c ∈ v.pnp_id.data, ¬c = '"') :
    parseEntryLine (vendorLine v) = some (v.pnp_id, v) := by
  obtain ⟨nm, pid, ⟨y, mo, dy⟩⟩ := v
  dsimp only at hn hp ⊢
  have hy : ∀ r, scanNat (Nat.toDigits 10 y ++ ',' :: r) = some (y, ',' :: r) :=
    fun r => scanNat_repr y ',' rfl r
  have hmo : ∀ r, scanNat (Nat.toDigits 10 mo ++ ',' :: r) = some (mo, ',' :: r) :=
    fun r => scanNat_repr mo ',' rfl r
  have hdy : ∀ r, scanNat (Nat.toDigits 10 dy ++ ')' :: r) = some (dy, ')' :: r) :=
    fun r => scanNat_repr dy ')' rfl r
  have e1 : "    \"".data = [' ', ' ', ' ', ' ', '"'] := rfl
  have e2 : "\": ".data = ['"', ':', ' '] := rfl
  have e3 : "pnp.Vendor(\"".data =
    ['p', 'n', 'p', '.', 'V', 'e', 'n', 'd', 'o', 'r', '(', '"'] := rfl
  have e4 : "\", \"".data = ['"', ',', ' ', '"'] := rfl
  have e5 : "\", ".data = ['"', ',', ' '] := rfl
  have e6 : "datetime.date(".data =
    ['d', 'a', 't', 'e', 't', 'i', 'm', 'e', '.', 'd', 'a', 't', 'e', '('] := rfl
  have e7 : ", ".data = [',', ' '] := rfl
  have e8 : ")".data = [')'] := rfl
  have e9 : ",".data = [','] := rfl
  have e10 : ": pnp.Vendor(\"".data =
    [':', ' ', 'p', 'n', 'p', '.', 'V', 'e', 'n', 'd', 'o', 'r', '(', '"'] := rfl
  have e11 : ", \"".data = [',', ' ', '"'] := rfl
  have e12 : ", datetime.date(".data =
    [',', ' ', 'd', 'a', 't', 'e', 't', 'i', 'm', 'e', '.', 'd', 'a', 't', 'e', '('] := rfl
  have e13 : ")),".data = [')', ')', ','] := rfl
  simp [parseEntryLine, vendorLine, vendorValue, dateExpr, dropPre,
    e1, e2, e3, e4, e5, e6, e7, e8, e9, e10, e11, e12, e13, List.append_assoc]
  rw [scanQuoted_append pid.data _ hp]
  simp [dropPre]
  rw [scanQuoted_append nm.data _ hn]
  simp [dropPre]
  rw [scanQuoted_append pid.data _ hp]
  simp [dropPre, hy, hmo, hdy]

/-- A well-formed row never raises. -/
theorem rowNoError_of_wellformed (r : List (Option String)) (h : wellFormedRow r) :
    rowNoError r = true := by
  unfold rowNoError
  rw [rowOutcome_wellformed r h]

/-- On a well-formed table the yielded records are the rows' records. -/
theorem yieldsOf_eq_map (rows : List (List (Option String)))
    (h : ∀ r ∈ rows, wellFormedRow r) : yieldsOf rows = rows.map recordOf := by
  induction rows with
  | nil => rfl
  | cons r rest ih =>
    have h1 := rowOutcome_wellformed r (h r (by simp))
    have h2 := ih fun x hx => h x (by simp [hx])
    simp only [yieldsOf, List.filterMap_cons, rowYield, h1, List.map_cons]
    rw [← yieldsOf, h2]

/-- The entry line, written as the flat concatenation the generator's format
strings produce. -/
theorem vendorLine_flat (v : Vendor) :
    vendorLine v =
      "    \"" ++ v.pnp_id ++ "\": pnp.Vendor(\"" ++ v.name ++ "\", \"" ++ v.pnp_id ++
        "\", datetime.date(" ++ Nat.repr v.approval_date.year ++ ", " ++
        Nat.repr v.approval_date.month ++ ", " ++ Nat.repr v.approval_date.day ++
        "))," := by
  apply String.ext
  simp [vendorLine, vendorValue, dateExpr, List.append_assoc]

/-- C1: for every well-formed input table — every relevant row has exactly
three text-bearing cells, a 3-ASCII-byte ID, and a valid zero-padded
`MM/DD/YYYY` date — `parse_spreadsheet` yields exactly one record per row, in
row order, with `name`, `pnp_id` and `approval_date` equal to the trimmed
cell texts, the date correctly decomposed into year, month and day. -/
theorem c1_parse_wellformed_table (rows : List (List (Option String)))
    (h : ∀ r ∈ rows, wellFormedRow r) :
    parse_spreadsheet rows = (rows.map recordOf, none) ∧
    ∀ a b c m d y, [some a, some b, some c] ∈ rows →
      pyStrip c = renderMDY m d y →
      1 ≤ m → m ≤ 12 → 1 ≤ d → d ≤ daysInMonth y m → 1 ≤ y → y ≤ 9999 →
      recordOf [some a, some b, some c] = ⟨pyStrip a, pyStrip b, ⟨y, m, d⟩⟩ := by
  constructor
  · have hne : ∀ r ∈ rows, rowNoError r = true :=
      fun r hr => rowNoError_of_wellformed r (h r hr)
    rw [parse_spreadsheet_noerror rows hne, yieldsOf_eq_map rows h]
  · intro a b c m d y _ hc h1 h2 h3 h4 h5 h6
    exact recordOf_eq a b c m d y hc h1 h2 h3 h4 h5 h6

/-- Witness for C1 at a concrete two-row table. -/
theorem c1_parse_wellformed_table_witness :
    parse_spreadsheet
        [[some "Acme Corp", some "ACM", some "01/15/2016"],
         [some "Beta Inc", some "BET", some "06/01/2020"]] =
      ([⟨"Acme Corp", "ACM", ⟨2016, 1, 15⟩⟩, ⟨"Beta Inc", "BET", ⟨2020, 6, 1⟩⟩],
        none) := by
  have h : ∀ r ∈ [[some "Acme Corp", some "ACM", some "01/15/2016"],
      [some "Beta Inc", some "BET", some "06/01/2020"]], wellFormedRow r := by
    intro r hr
    simp only [List.mem_cons, List.not_mem_nil, or_false] at hr
    rcases hr with rfl | rfl
    · exact ⟨"Acme Corp", "ACM", "01/15/2016", 1, 15, 2016, rfl, by decide,
        by decide, by decide, by decide, by decide, by decide, by decide, by decide⟩
    · exact ⟨"Beta Inc", "BET", "06/01/2020", 6, 1, 2020, rfl, by decide,
        by decide, by decide, by decide, by decide, by decide, by decide, by decide⟩
  exact (c1_parse_wellformed_table _ h).1.trans (by decide)

/-- C2: a three-cell row whose (stripped) ID does not encode to exactly 3
ASCII bytes aborts the run with the ID validation error once iteration
reaches it (assuming its cells bear text and its date parses, since those are
checked first): the records of the error-free rows before it have been
yielded, and nothing is yielded from that row onward. -/
theorem c2_bad_id_fail_fast (pre post : List (List (Option String)))
    (a b c : String)
    (hpre : ∀ r ∈ pre, rowNoError r = true)
    (hdate : (strptimeMDY (pyStrip c)).isSome = true)
    (hid : encodeAsciiLen (pyStrip b) ≠ some 3) :
    parse_spreadsheet (pre ++ [some a, some b, some c] :: post) =
      (yieldsOf pre, some ParseError.idError) := by
  have hro : rowOutcome [some a, some b, some c] =
      some (match strptimeMDY (pyStrip c) with
            | none => Except.error ParseError.dateError
            | some date =>
              match encodeAsciiLen (pyStrip b) with
              | none => Except.error ParseError.idError
              | some n =>
                if n ≠ 3 then Except.error ParseError.idError
                else Except.ok ⟨pyStrip a, pyStrip b, date⟩) := rfl
  have hrow : rowOutcome [some a, some b, some c] =
      some (.error ParseError.idError) := by
    obtain ⟨d0, hd0⟩ := Option.isSome_iff_exists.mp hdate
    rw [hro, hd0]
    cases henc : encodeAsciiLen (pyStrip b) with
    | none => rfl
    | some n =>
      have hn : n ≠ 3 := fun h3 => hid (by rw [henc, h3])
      simp [hn]
  rw [parse_spreadsheet_append pre _ hpre,
    parse_spreadsheet_cons_err _ _ _ hrow]
  simp

/-- Witness for C2: a valid row before, the bad-ID row, and a valid row
after; only the first row's record is yielded. -/
theorem c2_bad_id_fail_fast_witness :
    parse_spreadsheet
        [[some "Good Co", some "GDC", some "01/02/2003"],
         [some "Bad Co", some "AB", some "01/15/2016"],
         [some "After Co", some "AFT", some "01/15/2016"]] =
      ([⟨"Good Co", "GDC", ⟨2003, 1, 2⟩⟩], some ParseError.idError) := by
  have h := c2_bad_id_fail_fast [[some "Good Co", some "GDC", some "01/02/2003"]]
    [[some "After Co", some "AFT", some "01/15/2016"]] "Bad Co" "AB" "01/15/2016"
    (by decide) (by decide) (by decide)
  exact h.trans (by decide)

/-- C3 counterexample: the claim says no date string outside the exact
two-digit month / two-digit day / four-digit year shape is accepted, but
`"1/1/2016"` (single-digit month and day) is accepted: the row is parsed
successfully, yields a record dated 2016-01-01, and raises nothing. -/
theorem c3_two_digit_shape_counterexample :
    parse_spreadsheet [[some "Some Vendor", some "SVN", some "1/1/2016"]] =
      ([⟨"Some Vendor", "SVN", ⟨2016, 1, 1⟩⟩], none) := by decide

/-- C3 (amended): a three-cell row with text-bearing cells whose date string
is rejected by `strptime("%m/%d/%Y")` — the format accepts 1-2 digit months
and days and exactly-4-digit years of calendar-valid dates, not only the
zero-padded shape — aborts the whole run with the date parse error: earlier
error-free rows have been yielded, nothing more is. -/
theorem c3_bad_date_fail_fast (pre post : List (List (Option String)))
    (a b c : String)
    (hpre : ∀ r ∈ pre, rowNoError r = true)
    (hdate : strptimeMDY (pyStrip c) = none) :
    parse_spreadsheet (pre ++ [some a, some b, some c] :: post) =
      (yieldsOf pre, some ParseError.dateError) := by
  have hro : rowOutcome [some a, some b, some c] =
      some (match strptimeMDY (pyStrip c) with
            | none => Except.error ParseError.dateError
            | some date =>
              match encodeAsciiLen (pyStrip b) with
              | none => Except.error ParseError.idError
              | some n =>
                if n ≠ 3 then Except.error ParseError.idError
                else Except.ok ⟨pyStrip a, pyStrip b, date⟩) := rfl
  have hrow : rowOutcome [some a, some b, some c] =
      some (.error ParseError.dateError) := by
    rw [hro, hdate]
  rw [parse_spreadsheet_append pre _ hpre,
    parse_spreadsheet_cons_err _ _ _ hrow]
  simp

/-- Witness for C3 (amended) at the ISO-format date `"2016-01-01"`. -/
theorem c3_bad_date_fail_fast_witness :
    parse_spreadsheet
        [[some "Good Co", some "GDC", some "01/02/2003"],
         [some "Iso Co", some "ISO", some "2016-01-01"],
         [some "After Co", some "AFT", some "01/15/2016"]] =
      ([⟨"Good Co", "GDC", ⟨2003, 1, 2⟩⟩], some ParseError.dateError) := by
  have h := c3_bad_date_fail_fast [[some "Good Co", some "GDC", some "01/02/2003"]]
    [[some "After Co", some "AFT", some "01/15/2016"]] "Iso Co" "ISO" "2016-01-01"
    (by decide) (by decide)
  exact h.trans (by decide)

/-- C4: rows whose cell count is not three are silently skipped — parsing a
table equals parsing its 3-cell rows only — and the concrete table mixing a
2-cell spacer row with two valid rows yields exactly those two records with
no error. -/
theorem c4_skip_non_three_cell_rows :
    (∀ rows : List (List (Option String)),
      parse_spreadsheet rows =
        parse_spreadsheet (rows.filter fun r => r.length == 3)) ∧
    parse_spreadsheet
        [[some "Company", some "Approved Date"],
         [some "Acme Corp", some "ACM", some "01/15/2016"],
         [some "Beta Inc", some "BET", some "06/01/2020"]] =
      ([⟨"Acme Corp", "ACM", ⟨2016, 1, 15⟩⟩, ⟨"Beta Inc", "BET", ⟨2020, 6, 1⟩⟩],
        none) :=
  ⟨parse_spreadsheet_eq_filter, by decide⟩

/-- C5: the generated module is the fixed preamble (generated-file marker,
pylint and yapf suppression markers, the two imports), the opening mapping
marker, one entry line per vendor — quoted `pnp_id` key mapped to a
`pnp.Vendor` constructor call embedding name, ID and a `datetime.date` call
with numeric year/month/day arguments — then the closing brace, the yapf
re-enable marker, and a trailing blank line. -/
theorem c5_generate_module_shape (vs : List Vendor) :
    generate_vendor_module vs =
      ["# THIS FILE WAS AUTOGENERATED BY make_vendor_list.py!",
       "# pylint: disable=line-too-long,missing-docstring,too-many-lines",
       "# yapf: disable",
       "import datetime",
       "from bios_pnp import pnp",
       "VENDORS = \x7b"] ++
      vs.map (fun v =>
        "    \"" ++ v.pnp_id ++ "\": pnp.Vendor(\"" ++ v.name ++ "\", \"" ++
          v.pnp_id ++ "\", datetime.date(" ++ Nat.repr v.approval_date.year ++
          ", " ++ Nat.repr v.approval_date.month ++ ", " ++
          Nat.repr v.approval_date.day ++ ")),") ++
      ["\x7d", "# yapf: enable", ""] := by
  unfold generate_vendor_module
  rw [entryLines_eq_map]
  congr 1
  congr 1
  exact List.map_congr_left fun v _ => vendorLine_flat v

/-- C6: entry lines appear in exactly the input order with no sorting and no
deduplication — the entry region is the input mapped through the line
renderer — and a duplicated vendor produces its entry line twice. -/
theorem c6_entries_in_input_order_no_dedup :
    (∀ vs : List Vendor,
      ((generate_vendor_module vs).drop 6).take vs.length = vs.map vendorLine) ∧
    (generate_vendor_module [acme, acme]).count (vendorLine acme) = 2 := by
  constructor
  · intro vs
    unfold generate_vendor_module
    rw [entryLines_eq_map]
    have h6 : (["# THIS FILE WAS AUTOGENERATED BY make_vendor_list.py!",
        "# pylint: disable=line-too-long,missing-docstring,too-many-lines",
        "# yapf: disable",
        "import datetime",
        "from bios_pnp import pnp",
        "VENDORS = \x7b"] : List String).length = 6 := rfl
    rw [List.append_assoc, List.drop_left' h6,
      List.take_left' (List.length_map vs vendorLine)]
  · decide

/-- C7: generation is lossless for the captured fields: interpreting the
module generated for the two example records as a mapping reconstructs the
association list with keys ACM and BET carrying the original name, ID and
date; and in general the entry line of any vendor whose name and ID contain
no double quote parses back to exactly its key and record. -/
theorem c7_generate_roundtrip :
    loadVendors (generate_vendor_module [acme, beta]) =
      some [("ACM", acme), ("BET", beta)] ∧
    ∀ v : Vendor, (∀ c ∈ v.name.data, ¬c = '"') →
      (∀ c ∈ v.pnp_id.data, ¬c = '"') →
      parseEntryLine (vendorLine v) = some (v.pnp_id, v) :=
  ⟨by decide, parseEntryLine_vendorLine⟩

/-- Witness for C7, applying the general conjunct at a concrete vendor. -/
theorem c7_generate_roundtrip_witness :
    parseEntryLine (vendorLine beta) = some ("BET", beta) :=
  c7_generate_roundtrip.2 beta (by decide) (by decide)

/-- C8: the generator is deterministic and idempotent: two runs over the same
(restartable) input sequence produce byte-identical output text. In this pure
embedding the generator is a function of its input, so the two runs coincide
definitionally. -/
theorem c8_generator_deterministic_idempotent (vs : List Vendor) :
    (runTwice vs).1 = (runTwice vs).2 := rfl

/-- C9: a three-cell row with an empty cell (absent text) raises the
attribute-access error — not a skip, not a yield, and neither the
validation nor the date format error. -/
theorem c9_empty_cell_attribute_error :
    parse_spreadsheet [[some "Acme Corp", none, some "01/15/2016"]] =
      ([], some ParseError.attrError) := by decide

/-- C10: error handling is not atomic with respect to the output file: the
driver truncates the fixed output path before consuming the lazy pipeline,
so whenever parsing raises, the prior contents are already destroyed and the
file is left empty, whatever those contents were. -/
theorem c10_output_truncated_on_error (prior : String)
    (rows : List (List (Option String))) (e : ParseError)
    (h : (parse_spreadsheet rows).2 = some e) :
    mainModel prior rows = ("", some e) := by
  have h2 : parse_spreadsheet rows = ((parse_spreadsheet rows).1, some e) := by
    rw [← h]
  unfold mainModel runPipeline
  rw [h2]

/-- Witness for C10: nonempty prior contents are replaced by the empty file
when a bad-ID row aborts the pipeline. -/
theorem c10_output_truncated_on_error_witness :
    mainModel "VENDORS = \x7bold\x7d"
        [[some "Acme Corp", some "AB", some "01/15/2016"]] =
      ("", some ParseError.idError) :=
  c10_output_truncated_on_error _ _ ParseError.idError (by decide)
